import Mathlib

/-!
Verification development for the Serene-Grass-Land repository.

The source is a three.js scene (src/Game.tsx, src/grass.tsx, src/App.tsx,
src/pinetree.tsx, src/land.tsx).  The definitions below are a shallow
embedding of the program: three.js vectors and boxes become exact
field-valued records, the per-frame update methods of the `Game` class
become pure state-transition functions, and every call to an opaque
numeric library routine (Math.exp, Math.sin, Math.cos, Math.sqrt,
Math.random) is threaded in as an explicit function parameter, so the
theorems quantify over every possible behaviour of those routines.

All constants are written as exact fractions of the decimal literals in
the source (e.g. 0.3 becomes 3/10).
-/

namespace Serene

/-- Model of `THREE.Vector3`: a triple of coordinates in a linear ordered
field (the program computes with IEEE doubles; we use exact arithmetic). -/
structure Vec3 (α : Type) where
  x : α
  y : α
  z : α
deriving DecidableEq, Repr

namespace Vec3

variable {α : Type} [LinearOrderedField α]

/-- `Vector3.add` -/
def add (a b : Vec3 α) : Vec3 α := ⟨a.x + b.x, a.y + b.y, a.z + b.z⟩

/-- `Vector3.sub` -/
def sub (a b : Vec3 α) : Vec3 α := ⟨a.x - b.x, a.y - b.y, a.z - b.z⟩

/-- `Vector3.multiplyScalar` -/
def smul (c : α) (a : Vec3 α) : Vec3 α := ⟨c * a.x, c * a.y, c * a.z⟩

/-- The zero vector (`new THREE.Vector3()` / `set(0,0,0)`). -/
def zero : Vec3 α := ⟨0, 0, 0⟩

/-- `Vector3.lerp(v, alpha)`: componentwise `this.x += (v.x - this.x) * alpha`. -/
def lerp (a b : Vec3 α) (t : α) : Vec3 α :=
  ⟨a.x + (b.x - a.x) * t, a.y + (b.y - a.y) * t, a.z + (b.z - a.z) * t⟩

/-- `Vector3.lengthSq` -/
def lengthSq (a : Vec3 α) : α := a.x * a.x + a.y * a.y + a.z * a.z

/-- Squared distance between two points (`Vector3.distanceToSquared`).
The source compares `distanceTo(p) < r`; for nonnegative `r` that is
equivalent to `distanceToSquared(p) < r*r`, which stays inside the field. -/
def distSq (a b : Vec3 α) : α := lengthSq (sub a b)

/-- `Vector3.crossVectors` -/
def cross (a b : Vec3 α) : Vec3 α :=
  ⟨a.y * b.z - a.z * b.y, a.z * b.x - a.x * b.z, a.x * b.y - a.y * b.x⟩

/-- `Vector3.normalize`: `divideScalar(length || 1)`.  The square root of
the squared length is supplied by the abstract `sqrtF` parameter
(modelling `Math.sqrt` inside `Vector3.length`). -/
def normalize (sqrtF : α → α) (a : Vec3 α) : Vec3 α :=
  let l := sqrtF (lengthSq a)
  smul (1 / (if l = 0 then 1 else l)) a

end Vec3

/-- Model of `THREE.Box3`: an axis-aligned box given by min/max corners. -/
structure Box3 (α : Type) where
  min : Vec3 α
  max : Vec3 α
deriving DecidableEq, Repr

namespace Box3

variable {α : Type} [LinearOrderedField α]

/-- `Box3.translate(offset)` -/
def translate (b : Box3 α) (v : Vec3 α) : Box3 α :=
  ⟨b.min.add v, b.max.add v⟩

/-- `Box3.intersectsBox(box)`: three.js rules out intersection with six
splitting planes (`box.max.x < this.min.x || box.min.x > this.max.x || ...
? false : true`), so touching boxes count as intersecting. -/
def intersects (t b : Box3 α) : Bool :=
  !(decide (b.max.x < t.min.x) || decide (b.min.x > t.max.x) ||
    decide (b.max.y < t.min.y) || decide (b.min.y > t.max.y) ||
    decide (b.max.z < t.min.z) || decide (b.min.z > t.max.z))

/-- `Box3.containsPoint(point)`: `point.x < min.x || point.x > max.x || ...
? false : true` (boundary points are contained). -/
def containsPoint (b : Box3 α) (p : Vec3 α) : Bool :=
  !(decide (p.x < b.min.x) || decide (p.x > b.max.x) ||
    decide (p.y < b.min.y) || decide (p.y > b.max.y) ||
    decide (p.z < b.min.z) || decide (p.z > b.max.z))

/-- Clamp a scalar into an interval (`MathUtils.clamp`, used by
`Vector3.clamp` inside `Box3.clampPoint`). -/
def clampS (v lo hi : α) : α := Max.max lo (Min.min hi v)

/-- Squared distance from a point to the box.  three.js's
`Box3.distanceToPoint(p)` is `clampPoint(p).distanceTo(p)`; the source
compares it with `< 2.0`, equivalent to this squared form `< 4`. -/
def distanceToPointSq (b : Box3 α) (p : Vec3 α) : α :=
  Vec3.distSq ⟨clampS p.x b.min.x b.max.x,
               clampS p.y b.min.y b.max.y,
               clampS p.z b.min.z b.max.z⟩ p

/-- `Box3.expandByScalar(s)` -/
def expandByScalar (b : Box3 α) (s : α) : Box3 α :=
  ⟨⟨b.min.x - s, b.min.y - s, b.min.z - s⟩, ⟨b.max.x + s, b.max.y + s, b.max.z + s⟩⟩

end Box3

/-- The monolith's world bounding box.  From `land.tsx` `createMonolith`:
`BoxGeometry(0.8, 2.5, 0.5)` positioned at `(0, 1.25, -15)`, hence
min `(-0.4, 0, -15.25)`, max `(0.4, 2.5, -14.75)`. -/
def monolithBox {α : Type} [LinearOrderedField α] : Box3 α :=
  ⟨⟨-(2/5), 0, -(61/4)⟩, ⟨2/5, 5/2, -(59/4)⟩⟩

/-- The movement-key flags tracked in `Game.keysPressed`. -/
structure Keys where
  w : Bool
  a : Bool
  s : Bool
  d : Bool
deriving DecidableEq, Repr

/-- All keys released (the state `stopGame` resets to). -/
def noKeys : Keys := ⟨false, false, false, false⟩

/-- `Game.playerState` together with the player mesh's position. -/
structure PlayerState (α : Type) where
  position : Vec3 α
  velocity : Vec3 α
  yVelocity : α
  isJumping : Bool
deriving DecidableEq, Repr

/-- One collectible orb: `basePosition`/`timeOffset` from `orb.userData`,
plus the mesh's animated position, spin, and material colour. -/
structure Orb (α : Type) where
  basePosition : Vec3 α
  timeOffset : α
  position : Vec3 α
  rotationY : α
  color : Vec3 α
deriving DecidableEq, Repr

/-- One pooled particle mesh (position, material colour and opacity,
visibility flag). -/
structure Particle (α : Type) where
  position : Vec3 α
  color : Vec3 α
  opacity : α
  visible : Bool
deriving DecidableEq, Repr

/-- An entry of `Game.activeParticles`. -/
structure ActiveParticle (α : Type) where
  mesh : Particle α
  velocity : Vec3 α
  lifetime : α
  initialLifetime : α
deriving DecidableEq, Repr

/-- The particle system's state: `particlePool` and `activeParticles`.
JS `Array.push`/`Array.pop` act on the array's end; we model both arrays
as stacks whose head is the array's last element. -/
structure ParticleState (α : Type) where
  pool : List (Particle α)
  active : List (ActiveParticle α)
deriving DecidableEq, Repr

/-- The five `Math.random()` results one burst iteration consumes
(three velocity components, speed magnitude, lifetime). -/
structure BurstDraw (α : Type) where
  r1 : α
  r2 : α
  r3 : α
  r4 : α
  r5 : α
deriving DecidableEq, Repr

/-- `MAX_PARTICLES` (`Game.tsx`). -/
def MAX_PARTICLES : Nat := 150

/-- `PARTICLES_PER_BURST` (`Game.tsx`). -/
def PARTICLES_PER_BURST : Nat := 15

/-- `WIN_SCORE` (`Game.tsx`). -/
def WIN_SCORE : Nat := 10

/-- The whole mutable state of the `Game` instance that the claims are
about.  The camera-orbit quaternion is only changed by input events (never
by `update`), so its two per-frame uses are carried as derived vectors:
`orbitForward` is `(0,0,-1).applyQuaternion(cameraOrbit)` and
`orbitOffsetWorld` is `cameraOffset.applyQuaternion(cameraOrbit)`.
The player mesh's orientation enters `update` only through the
axis-aligned box `Box3.setFromObject(player)` computes from the rotated
1x1x1 cube; `playerHalfExtents` records that box's half-sizes (the box is
`position ± playerHalfExtents`). -/
structure GameState (α : Type) where
  player : PlayerState α
  playerHalfExtents : Vec3 α
  keysPressed : Keys
  orbitForward : Vec3 α
  orbitOffsetWorld : Vec3 α
  cameraPos : Vec3 α
  cameraLookAt : Vec3 α
  isActive : Bool
  isCelebratingWin : Bool
  pendingWinTimer : Bool
  orbs : List (Orb α)
  specialOrb : Option (Orb α)
  score : Nat
  particles : ParticleState α
deriving DecidableEq, Repr

variable {α : Type} [LinearOrderedField α]

/-- The jump/gravity phase at the top of `updatePlayer` (`Game.tsx`
lines 312-321): integrate `yVelocity` under gravity 20, move `y`, clamp to
`hoverHeight = 1.5` on landing and clear the jump flag. -/
def jumpPhase (delta : α) (p : PlayerState α) : PlayerState α :=
  if p.isJumping then
    let yv := p.yVelocity - 20 * delta
    let ypos := p.position.y + yv * delta
    if ypos ≤ 3/2 then
      { p with position := ⟨p.position.x, 3/2, p.position.z⟩, isJumping := false, yVelocity := 0 }
    else
      { p with position := ⟨p.position.x, ypos, p.position.z⟩, yVelocity := yv }
  else p

/-- `moveDirection` (`Game.tsx` lines 323-332): forward is the orbit's
forward vector flattened to the horizontal plane and normalized, right is
`(0,1,0) x forward` normalized; pressed keys add/subtract them. -/
def moveDirection (sqrtF : α → α) (keys : Keys) (orbitForward : Vec3 α) : Vec3 α :=
  let forward := Vec3.normalize sqrtF ⟨orbitForward.x, 0, orbitForward.z⟩
  let right := Vec3.normalize sqrtF (Vec3.cross ⟨0, 1, 0⟩ forward)
  let m0 : Vec3 α := Vec3.zero
  let m1 := if keys.w then m0.add forward else m0
  let m2 := if keys.s then m1.sub forward else m1
  let m3 := if keys.a then m2.add right else m2
  let m4 := if keys.d then m3.sub right else m3
  m4

/-- `targetVelocity` (`Game.tsx` lines 334-337): the normalized move
direction scaled by `moveSpeed = 5`, or zero when no direction. -/
def targetVelocity (sqrtF : α → α) (keys : Keys) (orbitForward : Vec3 α) : Vec3 α :=
  let md := moveDirection sqrtF keys orbitForward
  if md.lengthSq > 0 then Vec3.smul 5 (Vec3.normalize sqrtF md) else Vec3.zero

/-- The exponentially smoothed velocity (`Game.tsx` lines 339-340):
`velocity.lerp(targetVelocity, 1 - exp(-20 * delta))`.  `expF` models
`Math.exp`. -/
def smoothedVelocity (expF sqrtF : α → α) (delta : α) (g : GameState α) : Vec3 α :=
  Vec3.lerp g.player.velocity (targetVelocity sqrtF g.keysPressed g.orbitForward)
    (1 - expF (-(20 * delta)))

/-- `moveStep` (`Game.tsx` line 341): the smoothed velocity times delta. -/
def moveStep (expF sqrtF : α → α) (delta : α) (g : GameState α) : Vec3 α :=
  Vec3.smul delta (smoothedVelocity expF sqrtF delta g)

/-- The axis-aligned box `Box3.setFromObject` yields for the player cube:
its centre is the player's position and `h` the rotation-dependent
half-extents. -/
def playerBox (pos h : Vec3 α) : Box3 α := ⟨pos.sub h, pos.add h⟩

/-- The collision test of `updatePlayer` (`Game.tsx` lines 343-347):
the player's box, translated by the tentative step, against the
monolith's box. -/
def collisionTested (expF sqrtF : α → α) (delta : α) (mono : Box3 α) (g : GameState α) : Bool :=
  Box3.intersects
    (Box3.translate (playerBox (jumpPhase delta g.player).position g.playerHalfExtents)
      (moveStep expF sqrtF delta g))
    mono

/-- `Game.updatePlayer` (`Game.tsx` lines 306-359).  The trailing
orientation slerp (lines 353-358) runs only when the new velocity's
squared length exceeds 0.01; its only effect on later ticks' collision
geometry is through the player AABB, so the caller supplies `newH`, the
half-extents of the slerped orientation's AABB, which is installed
exactly when the slerp fires. -/
def updatePlayer (expF sqrtF : α → α) (delta : α) (mono : Box3 α) (newH : Vec3 α)
    (g : GameState α) : GameState α :=
  let p1 := jumpPhase delta g.player
  let vel1 := smoothedVelocity expF sqrtF delta g
  let step := moveStep expF sqrtF delta g
  let collided := collisionTested expF sqrtF delta mono g
  let pos2 := if collided then p1.position else p1.position.add step
  let vel2 := if collided then Vec3.zero else vel1
  let half2 := if vel2.lengthSq > 1/100 then newH else g.playerHalfExtents
  { g with player := { p1 with position := pos2, velocity := vel2 },
           playerHalfExtents := half2 }

/-- `Game.updateCamera` (`Game.tsx` lines 361-372): exponential pursuit
(rate 15) of the orbit offset from the player and of the look-at point
(target offset `(0, 1.2, 0)`). -/
def updateCamera (expF : α → α) (delta : α) (g : GameState α) : GameState α :=
  let f := 1 - expF (-(15 * delta))
  let cam := Vec3.lerp g.cameraPos (g.player.position.add g.orbitOffsetWorld) f
  let look := Vec3.lerp g.cameraLookAt (g.player.position.add ⟨0, 6/5, 0⟩) f
  { g with cameraPos := cam, cameraLookAt := look }

/-- `Game.updateOrbAnimation` (`Game.tsx` lines 374-383): vertical bob
`sin(t*2 + off) * 0.2`, circular drift of radius 0.2 at speed 0.5, and a
constant spin `rotation.y += delta`.  `sinF`/`cosF` model
`Math.sin`/`Math.cos`. -/
def animateOrb (sinF cosF : α → α) (delta t : α) (o : Orb α) : Orb α :=
  { o with
    position := ⟨o.basePosition.x + cosF (t * (1/2) + o.timeOffset) * (1/5),
                 o.basePosition.y + sinF (t * 2 + o.timeOffset) * (1/5),
                 o.basePosition.z + sinF (t * (1/2) + o.timeOffset) * (1/5)⟩,
    rotationY := o.rotationY + delta }

/-- The pickup test (`Game.tsx` lines 390, 399):
`player.position.distanceTo(orb.position) < PLAYER_SIZE/2 + 0.3`, i.e.
squared distance `< 0.8^2 = 16/25`. -/
def withinPickup (playerPos : Vec3 α) (o : Orb α) : Bool :=
  decide (Vec3.distSq playerPos o.position < 16/25)

/-- One iteration batch of `triggerOrbBurst`'s for-loop (`Game.tsx` lines
221-244): pop a mesh from the pool (JS `pop` takes the array's end, the
stack head here); on an empty pool, `continue`.  A popped mesh is placed
at the burst position, recoloured, made fully opaque and visible, and
pushed on `activeParticles` with a random upward-biased velocity
`normalize(r1-0.5, r2-0.5+0.5, r3-0.5) * (r4*2.5 + 1.5)` and a random
lifetime `r5*0.6 + 0.4`. -/
def triggerLoop (sqrtF : α → α) (draws : Nat → BurstDraw α) (position color : Vec3 α) :
    Nat → ParticleState α → ParticleState α
  | 0, ps => ps
  | n + 1, ps =>
    match ps.pool with
    | [] => triggerLoop sqrtF draws position color n ps
    | mesh :: rest =>
      let d := draws n
      let l := d.r5 * (3/5) + 2/5
      let entry : ActiveParticle α :=
        { mesh := { mesh with position := position, color := color, opacity := 1, visible := true },
          velocity := Vec3.smul (d.r4 * (5/2) + 3/2)
            (Vec3.normalize sqrtF ⟨d.r1 - 1/2, d.r2 - 1/2 + 1/2, d.r3 - 1/2⟩),
          lifetime := l,
          initialLifetime := l }
      triggerLoop sqrtF draws position color n { pool := rest, active := entry :: ps.active }

/-- `Game.triggerOrbBurst` (`Game.tsx` lines 220-245): run the loop
`PARTICLES_PER_BURST` times. -/
def triggerOrbBurst (sqrtF : α → α) (draws : Nat → BurstDraw α) (position color : Vec3 α)
    (ps : ParticleState α) : ParticleState α :=
  triggerLoop sqrtF draws position color PARTICLES_PER_BURST ps

/-- The body of `Game.updateParticles` (`Game.tsx` lines 276-297),
iterating over `activeParticles` from the last index down (list head
first): decrement the lifetime; if it is now `≤ 0`, hide the mesh and
push it back on the pool; otherwise apply gravity 9.8 to the velocity,
advance the position by the updated velocity times delta, and fade
opacity to `lifetime / initialLifetime`. -/
def updateParticlesList (delta : α) :
    List (ActiveParticle α) → List (Particle α) → List (ActiveParticle α) × List (Particle α)
  | [], pool => ([], pool)
  | p :: rest, pool =>
    let life := p.lifetime - delta
    if life ≤ 0 then
      updateParticlesList delta rest ({ p.mesh with visible := false } :: pool)
    else
      let vel : Vec3 α := ⟨p.velocity.x, p.velocity.y - (49/5) * delta, p.velocity.z⟩
      let pos := p.mesh.position.add (Vec3.smul delta vel)
      let mesh := { p.mesh with position := pos, opacity := life / p.initialLifetime }
      let r := updateParticlesList delta rest pool
      ({ p with lifetime := life, velocity := vel, mesh := mesh } :: r.1, r.2)

/-- `Game.updateParticles` on the particle-system state. -/
def stepParticles (delta : α) (ps : ParticleState α) : ParticleState α :=
  let r := updateParticlesList delta ps.active ps.pool
  { pool := r.2, active := r.1 }

/-- `Game.updateParticles` acting on the whole game state. -/
def updateParticles (delta : α) (g : GameState α) : GameState α :=
  { g with particles := stepParticles delta g.particles }

/-- The reverse-iterating pickup loop of `updateOrbs` (`Game.tsx` lines
387-396).  JS iterates indices `length-1 .. 0`, animating each orb and
splicing it out when it is within pickup range; since each entry is
visited exactly once and entries are independent, the pass returns the
kept orbs (in order) and the picked orbs in the order their bursts fire
(highest index, i.e. deepest list element, first). -/
def orbPass (animF : Orb α → Orb α) (pick : Orb α → Bool) :
    List (Orb α) → List (Orb α) × List (Orb α)
  | [] => ([], [])
  | o :: rest =>
    let r := orbPass animF pick rest
    let ao := animF o
    if pick ao then (r.1, r.2 ++ [ao]) else (ao :: r.1, r.2)

/-- `Game.handleWin` (`Game.tsx` lines 262-274): enter the celebration
state and schedule the 5-second `setTimeout`.  The timeout's id is not
stored anywhere by the source, which the `pendingWinTimer` flag records. -/
def handleWin (g : GameState α) : GameState α :=
  { g with isCelebratingWin := true, pendingWinTimer := true }

/-- `Game.updateOrbs` (`Game.tsx` lines 385-408): bail out while
celebrating; animate and collect normal orbs (1 point each, burst at the
orb with its colour), then the special orb (5 points); finally call
`handleWin` when the score has reached `WIN_SCORE` and no celebration is
running. -/
def updateOrbs (sinF cosF sqrtF : α → α) (draws : Nat → BurstDraw α) (delta t : α)
    (g : GameState α) : GameState α :=
  if g.isCelebratingWin then g else
  let animF := animateOrb sinF cosF delta t
  let pick := withinPickup g.player.position
  let r := orbPass animF pick g.orbs
  let score1 := g.score + r.2.length
  let parts1 := r.2.foldl (fun ps o => triggerOrbBurst sqrtF draws o.position o.color ps) g.particles
  let afterSpecial :
      Option (Orb α) × Nat × ParticleState α :=
    match g.specialOrb with
    | Option.none => (Option.none, score1, parts1)
    | Option.some so =>
      let aso := animF so
      if pick aso then
        (Option.none, score1 + 5, triggerOrbBurst sqrtF draws aso.position aso.color parts1)
      else (Option.some aso, score1, parts1)
  let g1 : GameState α :=
    { g with orbs := r.1, specialOrb := afterSpecial.1, score := afterSpecial.2.1,
             particles := afterSpecial.2.2 }
  if WIN_SCORE ≤ g1.score then handleWin g1 else g1

/-- `Game.update` (`Game.tsx` lines 410-416): a no-op unless the game is
active, otherwise `updatePlayer`, `updateCamera`, `updateOrbs`,
`updateParticles` in that order. -/
def update (expF sqrtF sinF cosF : α → α) (draws : Nat → BurstDraw α) (delta t : α)
    (mono : Box3 α) (newH : Vec3 α) (g : GameState α) : GameState α :=
  if g.isActive then
    updateParticles delta
      (updateOrbs sinF cosF sqrtF draws delta t
        (updateCamera expF delta
          (updatePlayer expF sqrtF delta mono newH g)))
  else g

/-- `Game.stopGame` (`Game.tsx` lines 167-177): deactivate, release all
keys, zero the velocity, remove input listeners and cancel the animation
frame.  No `clearTimeout` is issued, so a pending win timer survives. -/
def stopGame (g : GameState α) : GameState α :=
  { g with isActive := false, keysPressed := noKeys,
           player := { g.player with velocity := Vec3.zero } }

/-- `Game.dispose` (`Game.tsx` lines 502-523): remove orb and particle
meshes from the scene and empty both particle arrays.  No `clearTimeout`
is issued here either. -/
def dispose (g : GameState α) : GameState α :=
  { g with orbs := [], specialOrb := Option.none, particles := ⟨[], []⟩ }

/-- The callback `handleWin` handed to `setTimeout` (`Game.tsx` lines
269-273): hide the win screen, run `spawnOrbs` (which re-adds a fresh
batch of orbs to the scene and resets the score to 0 - the freshly
sampled orbs are parameters here since they come from `Math.random`
rejection sampling), and leave the celebration state. -/
def fireWinTimer (newOrbs : List (Orb α)) (newSpecial : Option (Orb α))
    (g : GameState α) : GameState α :=
  { g with orbs := newOrbs, specialOrb := newSpecial, score := 0,
           isCelebratingWin := false, pendingWinTimer := false }

/-!  Rejection-sampling acceptance predicates.  Each placement loop draws
`(x, z)` uniformly and retries while its rejection condition holds; a
generated instance is therefore exactly a point the predicate accepts. -/

/-- Acceptance test of the grass placement loop (`grass.tsx` lines
137-142): retry while the squared planar distance to the pond centre is
below `pondRadius^2`.  There is no other condition. -/
def grassAccepts (pondX pondZ radius x z : α) : Bool :=
  !decide ((x - pondX) * (x - pondX) + (z - pondZ) * (z - pondZ) < radius * radius)

/-- Acceptance test of the pine-tree placement loop (`App.tsx` lines
350-355): retry while inside the pond circle enlarged by 2, or inside the
central square `|x| < 20 && |z| < 20`. -/
def treeAccepts (pondX pondZ radius x z : α) : Bool :=
  !(decide ((x - pondX) * (x - pondX) + (z - pondZ) * (z - pondZ)
      < (radius + 2) * (radius + 2)) ||
    (decide (|x| < 20) && decide (|z| < 20)))

/-- Acceptance test of `placeOrb` inside `spawnOrbs` (`Game.tsx` lines
190-204): the candidate `(x, 1.5, z)` is accepted when it is neither in
the pond circle enlarged by 1 nor within distance 2 of the monolith's
bounding box (squared form of `monolithBBox.distanceToPoint(orbPos) <
2.0`). -/
def orbAccepts (mono : Box3 α) (pondX pondZ radius x z : α) : Bool :=
  !decide ((x - pondX) * (x - pondX) + (z - pondZ) * (z - pondZ)
      < (radius + 1) * (radius + 1)) &&
  !decide (Box3.distanceToPointSq mono ⟨x, 3/2, z⟩ < 4)

/-!  Grass blade geometry (`grass.tsx` lines 14-29). -/

/-- Vertex positions of `THREE.PlaneGeometry(width, height, gridX,
gridY)`: rows run from `iy = 0` (pushed y-coordinate `+height/2`, the top
edge) down to `iy = gridY` (`-height/2`), columns left to right. -/
def planePositions (width height : α) (gridX gridY : Nat) : List (Vec3 α) :=
  (List.range (gridY + 1)).flatMap fun iy =>
    (List.range (gridX + 1)).map fun ix =>
      ⟨(ix : α) * (width / (gridX : α)) - width / 2,
       -((iy : α) * (height / (gridY : α)) - height / 2), 0⟩

/-- `positions.setX(i, v)`: overwrite the x-coordinate of vertex `i`. -/
def setXAt (l : List (Vec3 α)) (i : Nat) (v : α) : List (Vec3 α) :=
  match l.get? i with
  | Option.none => l
  | Option.some p => l.set i ⟨v, p.y, p.z⟩

/-- The grass blade's vertex positions as built by `createGrass`:
`PlaneGeometry(0.1, 1.0, 1, 2)`, translated up by `0.5` so the base sits
at `y = 0`, then `setX(0, 0)` and `setX(1, 0)`. -/
def grassBladePositions : List (Vec3 α) :=
  let g0 := planePositions (1/10) 1 1 2
  let g1 := g0.map fun p => ⟨p.x, p.y + 1/2, p.z⟩
  setXAt (setXAt g1 0 0) 1 0

/-!  Pine-tree mesh builder (`pinetree.tsx`), modelled at the level of
buffer-geometry sizes.  A `GeomD` records a geometry's vertex count,
triangle count and a data payload holding every random draw baked into
its vertex data; `applyMatrix4`, recolouring and cloning change vertex
data pointwise and never the counts, so transforms are modelled by
prepending their (possibly random) parameters to the payload. -/

/-- A buffer geometry reduced to its sizes plus the random data baked
into it. -/
structure GeomD (α : Type) where
  verts : Nat
  tris : Nat
  data : List α
deriving DecidableEq, Repr

/-- `mergeGeometries`: concatenate vertex buffers; triangle counts add. -/
def mergeG (gs : List (GeomD α)) : GeomD α :=
  ⟨(gs.map fun g => g.verts).sum, (gs.map fun g => g.tris).sum,
   (gs.map fun g => g.data).flatten⟩

/-- `BufferGeometry.toNonIndexed`: one vertex per triangle corner. -/
def toNonIndexed (g : GeomD α) : GeomD α := ⟨3 * g.tris, g.tris, g.data⟩

/-- A clone transformed by `applyMatrix4` (and possibly recoloured):
counts unchanged, the transform's random parameters join the payload. -/
def applyTransform (params : List α) (g : GeomD α) : GeomD α :=
  ⟨g.verts, g.tris, params ++ g.data⟩

/-- Vertex count of `THREE.ConeGeometry(r, h, radial, hseg)` (a
`CylinderGeometry` with `radiusTop = 0`): torso grid plus the bottom
cap's centre and ring vertices. -/
def coneVerts (radial hseg : Nat) : Nat :=
  (radial + 1) * (hseg + 1) + radial + (radial + 1)

/-- Triangle count of the cone: the torso's top row degenerates to one
triangle per radial segment, the cap adds one per segment. -/
def coneTris (radial hseg : Nat) : Nat :=
  radial * (2 * hseg - 1) + radial

/-- An indexed cone geometry carrying `data` (its per-vertex random
colour jitter, where the source adds one). -/
def coneGeom (radial hseg : Nat) (data : List α) : GeomD α :=
  ⟨coneVerts radial hseg, coneTris radial hseg, data⟩

/-- `createPineNeedleSprig` (`pinetree.tsx` lines 13-54): 8 clones of an
indexed `PlaneGeometry(0.02, 0.6)` quad (4 vertices, 2 triangles), each
rotated by `angleX = pi*0.2 + (rnd - 0.5)*pi*0.2` and `yRot =
(i/8)*2*pi + rnd*0.5`, merged and de-indexed.  `piv` models `Math.PI`
and `r` the sprig's `Math.random` stream. -/
def createPineNeedleSprig (piv : α) (r : Nat → α) : GeomD α :=
  toNonIndexed (mergeG ((List.range 8).map fun i =>
    applyTransform
      [piv * (1/5) + (r (2 * i) - 1/2) * piv * (1/5),
       ((i : α) / 8) * piv * 2 + r (2 * i + 1) * (1/2)]
      ⟨4, 2, []⟩))

/-- `createFoliagePad` (`pinetree.tsx` lines 57-100): 15 clones of the
base sprig scattered over a flattened sphere (`phi = acos(1 - 2*rnd)`,
`theta = 2*pi*rnd`), oriented by `lookAt`, lower half recoloured; merged
without de-indexing. -/
def createFoliagePad (baseSprig : GeomD α) (r : Nat → α) : GeomD α :=
  mergeG ((List.range 15).map fun i =>
    applyTransform [r (2 * i), r (2 * i + 1)] baseSprig)

/-- The independent `Math.random` streams `createPineTreeGeometry`
consumes, split by draw site (the consumption pattern is deterministic,
so re-indexing the single sequential stream this way is faithful). -/
structure TreeRand (α : Type) where
  trunk : Nat → α
  sprig : Nat → α
  pad : Nat → α
  branchAngle : Nat → Nat → α
  padScale : Nat → Nat → Nat → α
  padYaw : Nat → Nat → Nat → α

/-- The foliage pads attached to one branch (`pinetree.tsx` lines
169-196): pads `k = 1..5`, each skipped exactly when `(k/5) *
branchLength < trunkRadius * 1.5 = 0.45` (a condition free of any random
draw), otherwise a clone of the shared pad scaled by
`foliageScale * (0.8 + rnd*0.4)` with a random yaw. -/
def branchPads (pad : GeomD α) (R : TreeRand α) (piv : α) (i j : Nat)
    (levelRatio branchLength : α) : List (GeomD α) :=
  (List.range 5).filterMap fun k0 =>
    let k : Nat := k0 + 1
    if (((k : Nat) : α) / 5) * branchLength < (3/10) * (3/2) then Option.none
    else
      Option.some (applyTransform
        [((1 - levelRatio) * (3/5) + 1/5) * (4/5 + R.padScale i j k * (2/5)),
         R.padYaw i j k * piv]
        pad)

/-- One branch with its foliage (`pinetree.tsx` lines 140-197): a tapered
`ConeGeometry(branchRadius, branchLength, 8, 1)` de-indexed, carrying the
random spiral-angle jitter, followed by its pads. -/
def branchGeoms (pad : GeomD α) (R : TreeRand α) (piv : α) (i j : Nat)
    (levelRatio branchLength : α) : List (GeomD α) :=
  let angle := ((j : α) / 5) * piv * 2 + (R.branchAngle i j - 1/2) * (4/5) + (i : α) * (3/10)
  let branchRadius := (1 - levelRatio) * (2/25) + 1/50
  toNonIndexed (coneGeom 8 1 [angle, branchRadius]) ::
    branchPads pad R piv i j levelRatio branchLength

/-- One branch level (`pinetree.tsx` lines 132-198): `levelRatio = i/9`,
`branchLength = sin(levelRatio*pi)*2.5 + 0.5`, the whole level skipped
when `branchLength < 0.5`, otherwise 5 branches. -/
def levelGeoms (pad : GeomD α) (R : TreeRand α) (sinF : α → α) (piv : α) (i : Nat) :
    List (GeomD α) :=
  let levelRatio : α := (i : α) / 9
  let branchLength := sinF (levelRatio * piv) * (5/2) + 1/2
  if branchLength < 1/2 then []
  else (List.range 5).flatMap fun j => branchGeoms pad R piv i j levelRatio branchLength

/-- The list of sub-geometries `createPineTreeGeometry` merges
(`pinetree.tsx` lines 103-206): the de-indexed trunk
`ConeGeometry(0.3, 7.5, 16, 5)` with its per-vertex colour jitter, then
10 branch levels built from one shared sprig and one shared pad. -/
def treeGeomList (R : TreeRand α) (sinF : α → α) (piv : α) : List (GeomD α) :=
  let trunk := toNonIndexed (coneGeom 16 5 ((List.range (coneVerts 16 5)).map R.trunk))
  let baseSprig := createPineNeedleSprig piv R.sprig
  let pad := createFoliagePad baseSprig R.pad
  trunk :: (List.range 10).flatMap (levelGeoms pad R sinF piv)

/-- `createPineTreeGeometry` (`pinetree.tsx` lines 103-219): merge all
produced sub-geometries. -/
def createPineTreeGeometry (R : TreeRand α) (sinF : α → α) (piv : α) : GeomD α :=
  mergeG (treeGeomList R sinF piv)

/-!  Concrete states used by witnesses and counterexamples. -/

/-- A fresh pool particle: `Mesh(BoxGeometry, MeshBasicMaterial)` at the
origin, default white colour, invisible (constructor, `Game.tsx` lines
99-107). -/
def initParticle : Particle α := ⟨Vec3.zero, ⟨1, 1, 1⟩, 1, false⟩

/-- The freshly initialised particle system: `MAX_PARTICLES` pooled
meshes, none active. -/
def initParticles : ParticleState α :=
  ⟨List.replicate MAX_PARTICLES initParticle, []⟩

/-- A quiescent in-game state: the grounded axis-aligned player at `pos`
with velocity `vel`, no keys held, the default orbit (camera behind the
player), no orbs, fresh particle pool. -/
def mkIdleState (pos vel : Vec3 α) : GameState α where
  player := { position := pos, velocity := vel, yVelocity := 0, isJumping := false }
  playerHalfExtents := ⟨1/2, 1/2, 1/2⟩
  keysPressed := noKeys
  orbitForward := ⟨0, 0, -1⟩
  orbitOffsetWorld := ⟨0, 5/2, 6⟩
  cameraPos := Vec3.zero
  cameraLookAt := Vec3.zero
  isActive := true
  isCelebratingWin := false
  pendingWinTimer := false
  orbs := []
  specialOrb := Option.none
  score := 0
  particles := initParticles

/-- One velocity-damping tick as the program performs it with no keys
held: the smoothed velocity computed by `updatePlayer`'s lines 334-340 at
a key-free state carrying velocity `v`. -/
def coastStep (expF sqrtF : α → α) (delta : α) (v : Vec3 α) : Vec3 α :=
  smoothedVelocity expF sqrtF delta (mkIdleState Vec3.zero v)

/-- `n` consecutive key-free damping ticks. -/
def coastIter (expF sqrtF : α → α) (delta : α) : Nat → Vec3 α → Vec3 α
  | 0, v => v
  | n + 1, v => coastStep expF sqrtF delta (coastIter expF sqrtF delta n v)

/-- A call into the particle system: an orb burst (`triggerOrbBurst`,
with the `Math.random`/`Math.sqrt` results it consumes) or a frame tick
(`updateParticles`). -/
inductive ParticleOp (α : Type) where
  | burst (draws : Nat → BurstDraw α) (sqrtF : α → α) (position color : Vec3 α)
  | tick (delta : α)

/-- Run one particle-system call. -/
def applyParticleOp : ParticleOp α → ParticleState α → ParticleState α
  | ParticleOp.burst draws sqrtF position color, ps => triggerOrbBurst sqrtF draws position color ps
  | ParticleOp.tick delta, ps => stepParticles delta ps

/-- Run a sequence of particle-system calls from a given state. -/
def runParticleOpsFrom (ps : ParticleState α) (ops : List (ParticleOp α)) : ParticleState α :=
  ops.foldl (fun s op => applyParticleOp op s) ps

/-- Run a sequence of particle-system calls from the freshly initialised
pool. -/
def runParticleOps (ops : List (ParticleOp α)) : ParticleState α :=
  runParticleOpsFrom initParticles ops

/-- The state of claim C2's counterexample: the game is active, the
player hangs axis-aligned above the monolith at `(0, 3.1, -15)` with zero
horizontal velocity, falling mid-jump at vertical speed `-4`. -/
def fallingOverMonolith : GameState ℚ :=
  { mkIdleState ⟨0, 31/10, -15⟩ Vec3.zero with
    player := { position := ⟨0, 31/10, -15⟩, velocity := Vec3.zero,
                yVelocity := -4, isJumping := true } }

/-!  ## Theorems -/

/-- `updateCamera` only touches the camera fields. -/
theorem updateCamera_player (expF : ℚ → ℚ) (delta : ℚ) (g : GameState ℚ) :
    (updateCamera expF delta g).player = g.player ∧
    (updateCamera expF delta g).playerHalfExtents = g.playerHalfExtents :=
  ⟨rfl, rfl⟩

/-- `updateOrbs` never moves the player or its bounding box. -/
theorem updateOrbs_player (sinF cosF sqrtF : ℚ → ℚ) (draws : Nat → BurstDraw ℚ)
    (delta t : ℚ) (g : GameState ℚ) :
    (updateOrbs sinF cosF sqrtF draws delta t g).player = g.player ∧
    (updateOrbs sinF cosF sqrtF draws delta t g).playerHalfExtents = g.playerHalfExtents := by
  unfold updateOrbs handleWin
  split
  · exact ⟨rfl, rfl⟩
  · dsimp only
    split <;> exact ⟨rfl, rfl⟩

/-- `updateParticles` never moves the player or its bounding box. -/
theorem updateParticles_player (delta : ℚ) (g : GameState ℚ) :
    (updateParticles delta g).player = g.player ∧
    (updateParticles delta g).playerHalfExtents = g.playerHalfExtents :=
  ⟨rfl, rfl⟩

/-- Moving the box's centre is translating the box. -/
theorem playerBox_add (p s h : Vec3 ℚ) :
    playerBox (p.add s) h = Box3.translate (playerBox p h) s := by
  simp only [playerBox, Box3.translate, Vec3.add, Vec3.sub, Box3.mk.injEq, Vec3.mk.injEq]
  refine ⟨⟨by ring, by ring, by ring⟩, by ring, by ring, by ring⟩

/-- With `newH = g.playerHalfExtents` the half-extents survive
`updatePlayer` unchanged. -/
theorem updatePlayer_half (expF sqrtF : ℚ → ℚ) (delta : ℚ) (mono : Box3 ℚ)
    (g : GameState ℚ) :
    (updatePlayer expF sqrtF delta mono g.playerHalfExtents g).playerHalfExtents
      = g.playerHalfExtents := by
  unfold updatePlayer
  dsimp only
  split <;> simp

/-- C1: in every character update, with `moveStep` the smoothed velocity
times delta, if the player's bounding box translated by `moveStep`
intersects the monolith's bounding box then the position is not advanced
by the step and the velocity is set to `(0,0,0)`; otherwise the position
advances by exactly `moveStep` and the velocity is the smoothed velocity,
untouched by the collision test. -/
theorem updatePlayer_collision_branch (expF sqrtF : ℚ → ℚ) (delta : ℚ) (mono : Box3 ℚ)
    (newH : Vec3 ℚ) (g : GameState ℚ) :
    (collisionTested expF sqrtF delta mono g = true →
      (updatePlayer expF sqrtF delta mono newH g).player.position
          = (jumpPhase delta g.player).position ∧
      (updatePlayer expF sqrtF delta mono newH g).player.velocity = Vec3.zero) ∧
    (collisionTested expF sqrtF delta mono g = false →
      (updatePlayer expF sqrtF delta mono newH g).player.position
          = (jumpPhase delta g.player).position.add (moveStep expF sqrtF delta g) ∧
      (updatePlayer expF sqrtF delta mono newH g).player.velocity
          = smoothedVelocity expF sqrtF delta g) := by
  constructor <;> intro h <;> simp [updatePlayer, h]

/-- Witness for C1: a stationary player standing inside the monolith's
box collides (the zero step is rejected and the velocity zeroed). -/
theorem updatePlayer_collision_branch_witness :
    collisionTested (fun _ => (0:ℚ)) (fun _ => 0) 1 monolithBox
        (mkIdleState ⟨0, 3/2, -15⟩ Vec3.zero) = true ∧
    (updatePlayer (fun _ => (0:ℚ)) (fun _ => 0) 1 monolithBox ⟨1/2, 1/2, 1/2⟩
        (mkIdleState ⟨0, 3/2, -15⟩ Vec3.zero)).player.velocity = Vec3.zero :=
  ⟨by with_unfolding_all decide,
   ((updatePlayer_collision_branch (fun _ => (0:ℚ)) (fun _ => 0) 1 monolithBox
      ⟨1/2, 1/2, 1/2⟩ (mkIdleState ⟨0, 3/2, -15⟩ Vec3.zero)).1 (by with_unfolding_all decide)).2⟩

/-- Counterexample to C2 as stated: from a disjoint state, a single
`update` can leave the player's box overlapping the monolith's box.  The
falling jump displacement is applied before the horizontal collision test
and is never rejected: the player at `(0, 3.1, -15)`, box `y` range
`[2.6, 3.6]`, clear of the monolith (top `2.5`), falls to `y = 2.5` in a
`delta = 0.1` tick; its box then overlaps the monolith on all axes while
the rejected zero-length horizontal step leaves it there. -/
theorem update_box_overlap_after_jump :
    Box3.intersects
        (playerBox fallingOverMonolith.player.position fallingOverMonolith.playerHalfExtents)
        monolithBox = false ∧
    Box3.intersects
        (playerBox
          (update (fun _ => (0:ℚ)) (fun _ => 0) (fun _ => 0) (fun _ => 0)
            (fun _ => ⟨0, 0, 0, 0, 0⟩) (1/10) 0 monolithBox ⟨1/2, 1/2, 1/2⟩
            fallingOverMonolith).player.position
          (update (fun _ => (0:ℚ)) (fun _ => 0) (fun _ => 0) (fun _ => 0)
            (fun _ => ⟨0, 0, 0, 0, 0⟩) (1/10) 0 monolithBox ⟨1/2, 1/2, 1/2⟩
            fallingOverMonolith).playerHalfExtents)
        monolithBox = true := by
  with_unfolding_all decide

/-- C2 amended: the non-penetration invariant does hold for every update
in which the character is not jumping and the tick does not change the
bounding box's half-extents (in particular whenever the post-tick speed
stays at or below the slerp threshold, so the orientation is untouched):
if the player's box is disjoint from the monolith's box before
`update(delta)`, it is disjoint afterwards. -/
theorem update_no_overlap_when_grounded (expF sqrtF sinF cosF : ℚ → ℚ)
    (draws : Nat → BurstDraw ℚ) (delta t : ℚ) (newH : Vec3 ℚ) (g : GameState ℚ)
    (hjump : g.player.isJumping = false)
    (hext : newH = g.playerHalfExtents)
    (hdisj : Box3.intersects (playerBox g.player.position g.playerHalfExtents)
        monolithBox = false) :
    Box3.intersects
      (playerBox
        (update expF sqrtF sinF cosF draws delta t monolithBox newH g).player.position
        (update expF sqrtF sinF cosF draws delta t monolithBox newH g).playerHalfExtents)
      monolithBox = false := by
  by_cases hA : g.isActive
  · have hu : update expF sqrtF sinF cosF draws delta t monolithBox newH g
        = updateParticles delta
            (updateOrbs sinF cosF sqrtF draws delta t
              (updateCamera expF delta
                (updatePlayer expF sqrtF delta monolithBox newH g))) := by
      simp [update, hA]
    rw [hu]
    set u := updatePlayer expF sqrtF delta monolithBox newH g with hdefu
    rw [(updateParticles_player delta _).1, (updateParticles_player delta _).2,
        (updateOrbs_player sinF cosF sqrtF draws delta t _).1,
        (updateOrbs_player sinF cosF sqrtF draws delta t _).2,
        (updateCamera_player expF delta _).1, (updateCamera_player expF delta _).2]
    have hhalf : u.playerHalfExtents = g.playerHalfExtents := by
      rw [hdefu, hext]; exact updatePlayer_half expF sqrtF delta monolithBox g
    have hjp : jumpPhase delta g.player = g.player := by
      simp [jumpPhase, hjump]
    rw [hhalf]
    by_cases hc : collisionTested expF sqrtF delta monolithBox g
    · have hpos : u.player.position = (jumpPhase delta g.player).position := by
        rw [hdefu]; unfold updatePlayer; simp [hc]
      rw [hpos, hjp]
      exact hdisj
    · have hpos : u.player.position
          = (jumpPhase delta g.player).position.add (moveStep expF sqrtF delta g) := by
        rw [hdefu]; unfold updatePlayer; simp [hc]
      rw [hpos, hjp, playerBox_add]
      have := hc
      unfold collisionTested at this
      rw [hjp] at this
      simpa using this
  · have hu : update expF sqrtF sinF cosF draws delta t monolithBox newH g = g := by
      simp [update, hA]
    rw [hu]
    exact hdisj

/-- Witness for C2 amended: a grounded player far from the monolith
stays disjoint. -/
theorem update_no_overlap_when_grounded_witness :
    Box3.intersects
      (playerBox
        (update (fun _ => (0:ℚ)) (fun _ => 0) (fun _ => 0) (fun _ => 0)
          (fun _ => ⟨0, 0, 0, 0, 0⟩) 1 0 monolithBox ⟨1/2, 1/2, 1/2⟩
          (mkIdleState ⟨10, 3/2, 5⟩ Vec3.zero)).player.position
        (update (fun _ => (0:ℚ)) (fun _ => 0) (fun _ => 0) (fun _ => 0)
          (fun _ => ⟨0, 0, 0, 0, 0⟩) 1 0 monolithBox ⟨1/2, 1/2, 1/2⟩
          (mkIdleState ⟨10, 3/2, 5⟩ Vec3.zero)).playerHalfExtents)
      monolithBox = false :=
  update_no_overlap_when_grounded (fun _ => (0:ℚ)) (fun _ => 0) (fun _ => 0) (fun _ => 0)
    (fun _ => ⟨0, 0, 0, 0, 0⟩) 1 0 ⟨1/2, 1/2, 1/2⟩ (mkIdleState ⟨10, 3/2, 5⟩ Vec3.zero)
    rfl rfl (by with_unfolding_all decide)

/-- Counterexample to C3 as stated: the grass sampler checks only the
pond.  The candidate `(x, z) = (0, -15)` passes the grass acceptance test
(its squared distance to the pond centre `(10, 5)` is `500 ≥ 225`), yet
the blade position `(0, 0, -15)` lies inside the monolith's bounding box
itself, hence inside any expansion of it. -/
theorem grass_inside_monolith_box :
    grassAccepts (10 : ℚ) 5 15 0 (-15) = true ∧
    Box3.containsPoint (monolithBox : Box3 ℚ) ⟨0, 0, -15⟩ = true ∧
    Box3.containsPoint (Box3.expandByScalar (monolithBox : Box3 ℚ) 2) ⟨0, 0, -15⟩ = true := by
  with_unfolding_all decide

/-- C3 amended: every accepted position keeps the claimed planar pond
clearance (grass `15`, trees `15+2`, orbs `15+1`); trees additionally lie
outside the monolith's box expanded by 2 and orbs at least distance 2
from the box, but grass positions carry no obstacle guarantee at all (the
sampler never consults the monolith, see the counterexample). -/
theorem placement_pond_obstacle_clearance (x z : ℚ) :
    (grassAccepts 10 5 15 x z = true →
      15 * 15 ≤ (x - 10) * (x - 10) + (z - 5) * (z - 5)) ∧
    (treeAccepts 10 5 15 x z = true →
      17 * 17 ≤ (x - 10) * (x - 10) + (z - 5) * (z - 5) ∧
      Box3.containsPoint (Box3.expandByScalar (monolithBox : Box3 ℚ) 2) ⟨x, 0, z⟩ = false) ∧
    (orbAccepts monolithBox 10 5 15 x z = true →
      16 * 16 ≤ (x - 10) * (x - 10) + (z - 5) * (z - 5) ∧
      4 ≤ Box3.distanceToPointSq (monolithBox : Box3 ℚ) ⟨x, 3/2, z⟩) := by
  refine ⟨?_, ?_, ?_⟩
  · intro h
    simp only [grassAccepts, Bool.not_eq_true', decide_eq_false_iff_not, not_lt] at h
    linarith
  · intro h
    simp only [treeAccepts, Bool.not_eq_true', Bool.or_eq_false_iff, Bool.and_eq_false_iff,
      decide_eq_false_iff_not, not_lt] at h
    obtain ⟨h1, h2⟩ := h
    refine ⟨by linarith, ?_⟩
    simp only [Box3.containsPoint, Box3.expandByScalar, monolithBox, Bool.not_eq_false',
      Bool.or_eq_true, decide_eq_true_eq]
    rcases h2 with hx | hz
    · rcases le_abs'.mp hx with hxl | hxr
      · left; left; left; left; left; linarith
      · left; left; left; left; right; linarith
    · rcases le_abs'.mp hz with hzl | hzr
      · left; right; linarith
      · right; linarith
  · intro h
    simp only [orbAccepts, Bool.and_eq_true, Bool.not_eq_true', decide_eq_false_iff_not,
      not_lt] at h
    exact ⟨by linarith [h.1], h.2⟩

/-- Witness for C3 amended: the sample `(30, 30)` is accepted by all
three samplers, and the grass pond-clearance conclusion holds there. -/
theorem placement_pond_obstacle_clearance_witness :
    15 * 15 ≤ ((30 : ℚ) - 10) * (30 - 10) + (30 - 5) * (30 - 5) :=
  (placement_pond_obstacle_clearance 30 30).1 (by with_unfolding_all decide)

/-- Counterexample to C8 as stated: it is not the case that every vertex
of the built grass blade with `y = 0` has `x = 0`; the bottom row keeps
its original `x = ±0.05` (three.js `PlaneGeometry` emits the top row
first, so indices 0 and 1 - the ones `setX` collapses - sit at `y = 1`
after the upward translation, not at `y = 0`). -/
theorem grass_base_vertices_not_collapsed :
    ¬ (∀ v ∈ (grassBladePositions : List (Vec3 ℚ)), v.y = 0 → v.x = 0) := by
  with_unfolding_all decide

/-- C8 amended: the blade is pinched at the tip, not at the base.  The
full vertex list of the built geometry: the two top-row vertices
(`y = 1.0`) have `x` forced to 0, while the middle and bottom rows keep
their original `x = ±0.05`. -/
theorem grass_blade_pinched_at_tip :
    (grassBladePositions : List (Vec3 ℚ)) =
      [⟨0, 1, 0⟩, ⟨0, 1, 0⟩,
       ⟨-(1/20), 1/2, 0⟩, ⟨1/20, 1/2, 0⟩,
       ⟨-(1/20), 0, 0⟩, ⟨1/20, 0, 0⟩] := by
  with_unfolding_all decide

/-- C9, code evaluated at the failing input: after `handleWin` has
scheduled the 5-second celebration timeout, running `stopGame` and then
`dispose` leaves the timer pending (neither stores nor clears the
timeout id, `Game.tsx` lines 269-273, 167-177, 502-523), and when it
fires after teardown it repopulates the orb set of the disposed game. -/
theorem win_timer_survives_teardown :
    (dispose (stopGame (handleWin
        (mkIdleState (⟨0, 3/2, 0⟩ : Vec3 ℚ) Vec3.zero)))).pendingWinTimer = true ∧
    (dispose (stopGame (handleWin
        (mkIdleState (⟨0, 3/2, 0⟩ : Vec3 ℚ) Vec3.zero)))).orbs = [] ∧
    (fireWinTimer [(⟨⟨1, 3/2, 1⟩, 0, ⟨1, 3/2, 1⟩, 0, ⟨1, 1, 1⟩⟩ : Orb ℚ)] Option.none
        (dispose (stopGame (handleWin
          (mkIdleState (⟨0, 3/2, 0⟩ : Vec3 ℚ) Vec3.zero))))).orbs
      = [⟨⟨1, 3/2, 1⟩, 0, ⟨1, 3/2, 1⟩, 0, ⟨1, 1, 1⟩⟩] :=
  ⟨rfl, rfl, rfl⟩

/-- C10: calling `update` while the game is inactive changes nothing at
all - the whole game state (player position, orientation box, velocity,
camera position and look-at, orbs, score, particles) is returned
untouched. -/
theorem update_inactive_noop (expF sqrtF sinF cosF : ℚ → ℚ) (draws : Nat → BurstDraw ℚ)
    (delta t : ℚ) (mono : Box3 ℚ) (newH : Vec3 ℚ) (g : GameState ℚ)
    (h : g.isActive = false) :
    update expF sqrtF sinF cosF draws delta t mono newH g = g := by
  simp [update, h]

/-- Witness for C10: a concrete inactive state is left untouched. -/
theorem update_inactive_noop_witness :
    update (fun _ => (0 : ℚ)) (fun _ => 0) (fun _ => 0) (fun _ => 0)
        (fun _ => ⟨0, 0, 0, 0, 0⟩) 1 1 monolithBox ⟨1/2, 1/2, 1/2⟩
        { mkIdleState ⟨0, 3/2, 0⟩ Vec3.zero with isActive := false }
      = { mkIdleState ⟨0, 3/2, 0⟩ Vec3.zero with isActive := false } :=
  update_inactive_noop (fun _ => (0 : ℚ)) (fun _ => 0) (fun _ => 0) (fun _ => 0)
    (fun _ => ⟨0, 0, 0, 0, 0⟩) 1 1 monolithBox ⟨1/2, 1/2, 1/2⟩
    { mkIdleState ⟨0, 3/2, 0⟩ Vec3.zero with isActive := false } rfl

/-- The burst loop moves particles between the two arrays but never
creates or drops one. -/
theorem triggerLoop_conserve (sqrtF : ℚ → ℚ) (draws : Nat → BurstDraw ℚ)
    (position color : Vec3 ℚ) (n : Nat) (ps : ParticleState ℚ) :
    (triggerLoop sqrtF draws position color n ps).active.length
      + (triggerLoop sqrtF draws position color n ps).pool.length
      = ps.active.length + ps.pool.length := by
  induction n generalizing ps with
  | zero => rfl
  | succ n ih =>
    rcases ps with ⟨pool, active⟩
    cases pool with
    | nil => simpa [triggerLoop] using ih ⟨[], active⟩
    | cons m rest =>
      simp only [triggerLoop]
      rw [ih]
      simp
      omega

/-- The burst loop spawns exactly `min n pool` particles. -/
theorem triggerLoop_gain (sqrtF : ℚ → ℚ) (draws : Nat → BurstDraw ℚ)
    (position color : Vec3 ℚ) (n : Nat) (ps : ParticleState ℚ) :
    (triggerLoop sqrtF draws position color n ps).active.length
      = ps.active.length + Min.min n ps.pool.length := by
  induction n generalizing ps with
  | zero => simp [triggerLoop]
  | succ n ih =>
    rcases ps with ⟨pool, active⟩
    cases pool with
    | nil => simpa [triggerLoop] using ih ⟨[], active⟩
    | cons m rest =>
      simp only [triggerLoop]
      rw [ih]
      simp [List.length_cons, Nat.succ_min_succ]
      omega

/-- The particle tick moves expired particles back to the pool and keeps
the rest: total count preserved. -/
theorem updateParticlesList_conserve (delta : ℚ) (act : List (ActiveParticle ℚ))
    (pool : List (Particle ℚ)) :
    (updateParticlesList delta act pool).1.length + (updateParticlesList delta act pool).2.length
      = act.length + pool.length := by
  induction act generalizing pool with
  | nil => rfl
  | cons p rest ih =>
    by_cases hl : p.lifetime - delta ≤ 0
    · simp only [updateParticlesList, if_pos hl]
      rw [ih]
      simp
      omega
    · simp only [updateParticlesList, if_neg hl]
      have := ih pool
      simp only [List.length_cons]
      omega

/-- Every particle-system call preserves the total particle count. -/
theorem applyParticleOp_conserve (op : ParticleOp ℚ) (ps : ParticleState ℚ)
    (h : ps.active.length + ps.pool.length = MAX_PARTICLES) :
    (applyParticleOp op ps).active.length + (applyParticleOp op ps).pool.length
      = MAX_PARTICLES := by
  cases op with
  | burst draws sqrtF position color =>
    simpa [applyParticleOp, triggerOrbBurst,
      triggerLoop_conserve sqrtF draws position color PARTICLES_PER_BURST ps] using h
  | tick delta =>
    simpa [applyParticleOp, stepParticles,
      updateParticlesList_conserve delta ps.active ps.pool] using h

/-- Conservation propagates down any call sequence. -/
theorem runParticleOpsFrom_conserve (ops : List (ParticleOp ℚ)) (ps : ParticleState ℚ)
    (h : ps.active.length + ps.pool.length = MAX_PARTICLES) :
    (runParticleOpsFrom ps ops).active.length + (runParticleOpsFrom ps ops).pool.length
      = MAX_PARTICLES := by
  induction ops generalizing ps with
  | nil => exact h
  | cons op rest ih =>
    exact ih (applyParticleOp op ps) (applyParticleOp_conserve op ps h)

/-- C4: after any sequence of burst-trigger and particle-update calls
starting from the freshly initialised pool, active plus pooled particles
equals `MAX_PARTICLES` (so the invariant holds before and after every
call of the sequence), and a further burst trigger spawns exactly
`min PARTICLES_PER_BURST pooled` particles - silently fewer than 15 when
the pool is short, with no allocation beyond the pool. -/
theorem particle_pool_conservation (ops : List (ParticleOp ℚ)) :
    (runParticleOps ops).active.length + (runParticleOps ops).pool.length = MAX_PARTICLES ∧
    ∀ (draws : Nat → BurstDraw ℚ) (sqrtF : ℚ → ℚ) (position color : Vec3 ℚ),
      (applyParticleOp (ParticleOp.burst draws sqrtF position color)
          (runParticleOps ops)).active.length
        = (runParticleOps ops).active.length
          + Min.min PARTICLES_PER_BURST (runParticleOps ops).pool.length := by
  constructor
  · exact runParticleOpsFrom_conserve ops initParticles (by simp [initParticles])
  · intro draws sqrtF position color
    exact triggerLoop_gain sqrtF draws position color PARTICLES_PER_BURST (runParticleOps ops)

/-- The reverse-iterating splice loop is a filter: kept orbs are the
animated ones outside pickup range (in order), picked orbs are the
animated ones in range, in burst order (highest index first). -/
theorem orbPass_spec (animF : Orb ℚ → Orb ℚ) (pick : Orb ℚ → Bool) (l : List (Orb ℚ)) :
    (orbPass animF pick l).1 = (l.map animF).filter (fun o => !pick o) ∧
    (orbPass animF pick l).2 = ((l.map animF).filter pick).reverse := by
  induction l with
  | nil => exact ⟨rfl, rfl⟩
  | cons o rest ih =>
    simp only [orbPass, List.map_cons, List.filter_cons]
    cases hp : pick (animF o) <;>
      simp [hp, ih.1, ih.2]

/-- C5: in one `updateOrbs` pass outside the celebration state, the
surviving orb set is exactly the animated orbs outside pickup range; the
score grows by exactly one point per picked normal orb plus five when the
special orb is in range; an orb within pickup range is removed (it is
not in the surviving set), so it can never be collected or scored again
by later ticks; and the special orb is cleared exactly when picked. -/
theorem orb_pickup_exactly_once (sinF cosF sqrtF : ℚ → ℚ) (draws : Nat → BurstDraw ℚ)
    (delta t : ℚ) (g : GameState ℚ) (hc : g.isCelebratingWin = false) :
    (updateOrbs sinF cosF sqrtF draws delta t g).orbs
        = (g.orbs.map (animateOrb sinF cosF delta t)).filter
            (fun o => !withinPickup g.player.position o) ∧
    (updateOrbs sinF cosF sqrtF draws delta t g).score
        = g.score
          + ((g.orbs.map (animateOrb sinF cosF delta t)).filter
              (withinPickup g.player.position)).length
          + (match g.specialOrb with
             | Option.none => 0
             | Option.some so =>
               if withinPickup g.player.position (animateOrb sinF cosF delta t so) then 5
               else 0) ∧
    (∀ o ∈ g.orbs, withinPickup g.player.position (animateOrb sinF cosF delta t o) = true →
      (animateOrb sinF cosF delta t o) ∉ (updateOrbs sinF cosF sqrtF draws delta t g).orbs) ∧
    (updateOrbs sinF cosF sqrtF draws delta t g).specialOrb
        = (match g.specialOrb with
           | Option.none => Option.none
           | Option.some so =>
             if withinPickup g.player.position (animateOrb sinF cosF delta t so)
             then Option.none
             else Option.some (animateOrb sinF cosF delta t so)) := by
  have hfilter :
      (updateOrbs sinF cosF sqrtF draws delta t g).orbs
        = (g.orbs.map (animateOrb sinF cosF delta t)).filter
            (fun o => !withinPickup g.player.position o) := by
    unfold updateOrbs handleWin
    simp only [hc, Bool.false_eq_true, if_false]
    cases g.specialOrb <;>
      simp only [] <;>
      split <;>
      simp [(orbPass_spec (animateOrb sinF cosF delta t)
        (withinPickup g.player.position) g.orbs).1] <;>
      split <;>
      simp [(orbPass_spec (animateOrb sinF cosF delta t)
        (withinPickup g.player.position) g.orbs).1]
  refine ⟨hfilter, ?_, ?_, ?_⟩
  · unfold updateOrbs handleWin
    simp only [hc, Bool.false_eq_true, if_false]
    cases g.specialOrb <;>
      simp only [] <;>
      split <;>
      simp [(orbPass_spec (animateOrb sinF cosF delta t)
        (withinPickup g.player.position) g.orbs).2] <;>
      split <;>
      simp [(orbPass_spec (animateOrb sinF cosF delta t)
        (withinPickup g.player.position) g.orbs).2]
  · intro o ho hin
    rw [hfilter]
    intro hmem
    rcases List.mem_filter.mp hmem with ⟨-, hkeep⟩
    rw [hin] at hkeep
    simp at hkeep
  · unfold updateOrbs handleWin
    simp only [hc, Bool.false_eq_true, if_false]
    cases g.specialOrb <;>
      simp only [] <;>
      split <;>
      simp <;>
      split <;>
      simp

/-- Witness for C5: one orb at the stationary player's position is
picked, removed and scored exactly once. -/
theorem orb_pickup_exactly_once_witness :
    (updateOrbs (fun _ => (0 : ℚ)) (fun _ => 0) (fun _ => 0) (fun _ => ⟨0, 0, 0, 0, 0⟩) 1 1
        { mkIdleState ⟨0, 3/2, 0⟩ Vec3.zero with
          orbs := [⟨⟨0, 3/2, 0⟩, 0, ⟨0, 3/2, 0⟩, 0, ⟨1, 1, 1⟩⟩] }).orbs
      = (([⟨⟨0, 3/2, 0⟩, 0, ⟨0, 3/2, 0⟩, 0, ⟨1, 1, 1⟩⟩] :
            List (Orb ℚ)).map (animateOrb (fun _ => 0) (fun _ => 0) 1 1)).filter
          (fun o => !withinPickup (⟨0, 3/2, 0⟩ : Vec3 ℚ) o) :=
  (orb_pickup_exactly_once (fun _ => (0 : ℚ)) (fun _ => 0) (fun _ => 0)
    (fun _ => ⟨0, 0, 0, 0, 0⟩) 1 1
    { mkIdleState ⟨0, 3/2, 0⟩ Vec3.zero with
      orbs := [⟨⟨0, 3/2, 0⟩, 0, ⟨0, 3/2, 0⟩, 0, ⟨1, 1, 1⟩⟩] } rfl).1

/-- With no key pressed the target velocity is zero, so the lerp with
factor `1 - expF(-20 delta)` scales the velocity by `expF(-20 delta)`,
whatever function `expF` is. -/
theorem smoothedVelocity_noKeys {β : Type} [LinearOrderedField β] (expF sqrtF : β → β)
    (delta : β) (g : GameState β) (hk : g.keysPressed = noKeys) :
    smoothedVelocity expF sqrtF delta g
      = Vec3.smul (expF (-(20 * delta))) g.player.velocity := by
  unfold smoothedVelocity targetVelocity moveDirection
  rw [hk]
  rcases hv : g.player.velocity with ⟨vx, vy, vz⟩
  simp only [noKeys, Bool.false_eq_true, if_false, Vec3.zero, Vec3.lengthSq, Vec3.lerp,
    Vec3.smul, Vec3.mk.injEq]
  norm_num
  refine ⟨by ring, by ring, by ring⟩

/-- Scaling a vector scales its squared length by the square. -/
theorem lengthSq_smul {β : Type} [LinearOrderedField β] (c : β) (v : Vec3 β) :
    (Vec3.smul c v).lengthSq = c * c * v.lengthSq := by
  rcases v with ⟨vx, vy, vz⟩
  simp only [Vec3.smul, Vec3.lengthSq]
  ring

/-- Iterated scaling. -/
theorem smul_smul_vec {β : Type} [LinearOrderedField β] (a b : β) (v : Vec3 β) :
    Vec3.smul a (Vec3.smul b v) = Vec3.smul (a * b) v := by
  rcases v with ⟨vx, vy, vz⟩
  simp only [Vec3.smul, Vec3.mk.injEq]
  refine ⟨by ring, by ring, by ring⟩

/-- Coasting `n` ticks scales the velocity by the `n`-th power of the
per-tick factor. -/
theorem coastIter_eq_pow (sqrtF : ℝ → ℝ) (delta : ℝ) (n : Nat) (v : Vec3 ℝ) :
    coastIter Real.exp sqrtF delta n v
      = Vec3.smul (Real.exp (-(20 * delta)) ^ n) v := by
  induction n with
  | zero =>
    rcases v with ⟨vx, vy, vz⟩
    simp [coastIter, Vec3.smul]
  | succ n ih =>
    show coastStep Real.exp sqrtF delta (coastIter Real.exp sqrtF delta n v) = _
    rw [ih]
    unfold coastStep
    rw [smoothedVelocity_noKeys Real.exp sqrtF delta _ rfl]
    show Vec3.smul _ (Vec3.smul _ v) = _
    rw [smul_smul_vec]
    ring_nf

/-- C6: with no movement key pressed the smoothed velocity is the
previous velocity scaled by `exp(-20 delta)`; absent a collision
rejection the tick's final velocity equals that; hence for any nonzero
velocity and `delta > 0` the squared magnitude strictly shrinks each
tick, and iterating key-free ticks at `delta = 1/60` drives the
magnitude below any `eps > 0` from some tick count on. -/
theorem velocity_damping_convergence (sqrtF : ℝ → ℝ) (delta : ℝ) (hd : 0 < delta)
    (g : GameState ℝ) (hk : g.keysPressed = noKeys) :
    smoothedVelocity Real.exp sqrtF delta g
        = Vec3.smul (Real.exp (-(20 * delta))) g.player.velocity ∧
    (∀ (mono : Box3 ℝ) (newH : Vec3 ℝ),
      collisionTested Real.exp sqrtF delta mono g = false →
      (updatePlayer Real.exp sqrtF delta mono newH g).player.velocity
        = Vec3.smul (Real.exp (-(20 * delta))) g.player.velocity) ∧
    (0 < g.player.velocity.lengthSq →
      (Vec3.smul (Real.exp (-(20 * delta))) g.player.velocity).lengthSq
        < g.player.velocity.lengthSq) ∧
    (∀ eps : ℝ, 0 < eps → ∃ N : Nat, ∀ n, N ≤ n →
      (coastIter Real.exp sqrtF (1/60) n g.player.velocity).lengthSq < eps * eps) := by
  have h1 := smoothedVelocity_noKeys Real.exp sqrtF delta g hk
  have hE0 : 0 < Real.exp (-(20 * delta)) := Real.exp_pos _
  have hE1 : Real.exp (-(20 * delta)) < 1 := by
    rw [Real.exp_lt_one_iff]
    nlinarith
  refine ⟨h1, ?_, ?_, ?_⟩
  · intro mono newH hcol
    unfold updatePlayer
    simp only [hcol, Bool.false_eq_true, if_false]
    exact h1
  · intro hpos
    rw [lengthSq_smul]
    have hEE : Real.exp (-(20 * delta)) * Real.exp (-(20 * delta)) < 1 := by nlinarith
    exact mul_lt_of_lt_one_left hpos hEE
  · intro eps heps
    have hE0' : 0 < Real.exp (-(20 * (1/60 : ℝ))) := Real.exp_pos _
    have hE1' : Real.exp (-(20 * (1/60 : ℝ))) < 1 := by
      rw [Real.exp_lt_one_iff]
      norm_num
    set E : ℝ := Real.exp (-(20 * (1/60 : ℝ))) with hEdef
    set L : ℝ := g.player.velocity.lengthSq with hLdef
    have key : ∀ n : Nat, (coastIter Real.exp sqrtF (1/60) n g.player.velocity).lengthSq
        = (E * E) ^ n * L := by
      intro n
      rw [coastIter_eq_pow, lengthSq_smul, hLdef, mul_pow]
    by_cases hL : 0 < L
    · have hr0 : 0 ≤ E * E := le_of_lt (mul_pos hE0' hE0')
      have hr1 : E * E < 1 := by nlinarith
      obtain ⟨N, hN⟩ := exists_pow_lt_of_lt_one (div_pos (mul_pos heps heps) hL) hr1
      refine ⟨N, fun n hn => ?_⟩
      rw [key]
      have hmono : (E * E) ^ n ≤ (E * E) ^ N :=
        pow_le_pow_of_le_one hr0 (le_of_lt hr1) hn
      have : (E * E) ^ n * L < (eps * eps / L) * L := by
        apply lt_of_le_of_lt (mul_le_mul_of_nonneg_right hmono (le_of_lt hL))
        exact mul_lt_mul_of_pos_right hN hL
      rwa [div_mul_cancel₀ (eps * eps) (ne_of_gt hL)] at this
    · refine ⟨0, fun n _ => ?_⟩
      rw [key]
      have hrpos : 0 < (E * E) ^ n := pow_pos (mul_pos hE0' hE0') n
      have hLe : L ≤ 0 := le_of_not_lt hL
      nlinarith

/-- Witness for C6: one key-free tick at `delta = 1` scales the velocity
`(1,0,0)` by `exp(-20)`. -/
theorem velocity_damping_convergence_witness :
    smoothedVelocity Real.exp (fun _ => (0 : ℝ)) 1 (mkIdleState Vec3.zero ⟨1, 0, 0⟩)
      = Vec3.smul (Real.exp (-(20 * 1)))
          (mkIdleState Vec3.zero (⟨1, 0, 0⟩ : Vec3 ℝ)).player.velocity :=
  (velocity_damping_convergence (fun _ => (0 : ℝ)) 1 one_pos
    (mkIdleState Vec3.zero ⟨1, 0, 0⟩) rfl).1

/-- Merging `n` clones with identical counts multiplies the counts. -/
theorem mergeG_range_counts (n c d : Nat) (f : Nat → GeomD ℚ)
    (h : ∀ i, (f i).verts = c ∧ (f i).tris = d) :
    (mergeG ((List.range n).map f)).verts = n * c ∧
    (mergeG ((List.range n).map f)).tris = n * d := by
  constructor
  · show (((List.range n).map f).map fun g => g.verts).sum = n * c
    rw [List.map_map]
    simp only [Function.comp_def]
    have he : (List.range n).map (fun i => (f i).verts) = List.replicate n c := by
      rw [List.eq_replicate_iff]
      refine ⟨by simp, ?_⟩
      intro b hb
      rcases List.mem_map.mp hb with ⟨i, -, rfl⟩
      exact (h i).1
    rw [he, List.sum_replicate, smul_eq_mul]
  · show (((List.range n).map f).map fun g => g.tris).sum = n * d
    rw [List.map_map]
    simp only [Function.comp_def]
    have he : (List.range n).map (fun i => (f i).tris) = List.replicate n d := by
      rw [List.eq_replicate_iff]
      refine ⟨by simp, ?_⟩
      intro b hb
      rcases List.mem_map.mp hb with ⟨i, -, rfl⟩
      exact (h i).2
    rw [he, List.sum_replicate, smul_eq_mul]

/-- The shared sprig: 8 needle quads (4 vertices, 2 triangles each),
merged and de-indexed, whatever the random draws are: 48 vertices, 16
triangles. -/
theorem sprig_counts (piv : ℚ) (r : Nat → ℚ) :
    (createPineNeedleSprig piv r).verts = 48 ∧
    (createPineNeedleSprig piv r).tris = 16 := by
  unfold createPineNeedleSprig
  have h := mergeG_range_counts 8 4 2
    (fun i => applyTransform
      [piv * (1/5) + (r (2 * i) - 1/2) * piv * (1/5),
       ((i : ℚ) / 8) * piv * 2 + r (2 * i + 1) * (1/2)]
      ⟨4, 2, []⟩)
    (fun i => ⟨rfl, rfl⟩)
  exact ⟨by show 3 * (mergeG _).tris = 48; rw [h.2], by show (mergeG _).tris = 16; rw [h.2]⟩

/-- The counts of the shared foliage pad built from the shared sprig:
15 sprigs of 8 de-indexed needle quads each, `15 * 48 = 720` vertices
and `15 * 16 = 240` triangles, whatever the random draws are. -/
theorem pad_counts (piv : ℚ) (r1 r2 : Nat → ℚ) :
    (createFoliagePad (createPineNeedleSprig piv r1) r2).verts = 720 ∧
    (createFoliagePad (createPineNeedleSprig piv r1) r2).tris = 240 := by
  unfold createFoliagePad
  have h := mergeG_range_counts 15 48 16
    (fun i => applyTransform [r2 (2 * i), r2 (2 * i + 1)] (createPineNeedleSprig piv r1))
    (fun i => ⟨(sprig_counts piv r1).1, (sprig_counts piv r1).2⟩)
  exact ⟨h.1, h.2⟩

/-- The pad-placement loop of one branch emits the same vertex/triangle
counts whatever the random draws are: its only skip condition compares
the draw-free `(k/5) * branchLength` against `0.45`. -/
theorem branchPads_counts (pad1 pad2 : GeomD ℚ) (R1 R2 : TreeRand ℚ) (piv1 piv2 : ℚ)
    (i1 j1 i2 j2 : Nat) (lr1 lr2 bl : ℚ)
    (hv : pad1.verts = pad2.verts) (ht : pad1.tris = pad2.tris) :
    (branchPads pad1 R1 piv1 i1 j1 lr1 bl).map (fun g => (g.verts, g.tris))
      = (branchPads pad2 R2 piv2 i2 j2 lr2 bl).map (fun g => (g.verts, g.tris)) := by
  simp only [branchPads]
  rw [List.map_filterMap, List.map_filterMap]
  congr 1
  funext k0
  split <;> simp [applyTransform, hv, ht]

/-- One branch (cone plus pads) has draw-independent counts. -/
theorem branchGeoms_counts (pad1 pad2 : GeomD ℚ) (R1 R2 : TreeRand ℚ) (piv : ℚ)
    (i j : Nat) (lr bl : ℚ)
    (hv : pad1.verts = pad2.verts) (ht : pad1.tris = pad2.tris) :
    (branchGeoms pad1 R1 piv i j lr bl).map (fun g => (g.verts, g.tris))
      = (branchGeoms pad2 R2 piv i j lr bl).map (fun g => (g.verts, g.tris)) := by
  simp only [branchGeoms, List.map_cons]
  congr 1
  exact branchPads_counts pad1 pad2 R1 R2 piv piv i j i j lr lr bl hv ht

/-- One branch level has draw-independent counts (its skip condition
`branchLength < 0.5` depends only on `sinF` and `piv`). -/
theorem levelGeoms_counts (pad1 pad2 : GeomD ℚ) (R1 R2 : TreeRand ℚ)
    (sinF : ℚ → ℚ) (piv : ℚ) (i : Nat)
    (hv : pad1.verts = pad2.verts) (ht : pad1.tris = pad2.tris) :
    (levelGeoms pad1 R1 sinF piv i).map (fun g => (g.verts, g.tris))
      = (levelGeoms pad2 R2 sinF piv i).map (fun g => (g.verts, g.tris)) := by
  simp only [levelGeoms]
  split
  · rfl
  · rw [List.map_flatMap, List.map_flatMap]
    congr 1
    funext j
    exact branchGeoms_counts pad1 pad2 R1 R2 piv i j _ _ hv ht

/-- The whole generated geometry list has draw-independent counts. -/
theorem treeGeomList_counts (R1 R2 : TreeRand ℚ) (sinF : ℚ → ℚ) (piv : ℚ) :
    (treeGeomList R1 sinF piv).map (fun g => (g.verts, g.tris))
      = (treeGeomList R2 sinF piv).map (fun g => (g.verts, g.tris)) := by
  simp only [treeGeomList, List.map_cons]
  rw [List.map_flatMap, List.map_flatMap]
  refine congrArg₂ List.cons ?_ (congrArg (List.range 10).flatMap (funext fun i => ?_))
  · rfl
  · exact levelGeoms_counts _ _ R1 R2 sinF piv i
      ((pad_counts piv R1.sprig R1.pad).1.trans (pad_counts piv R2.sprig R2.pad).1.symm)
      ((pad_counts piv R1.sprig R1.pad).2.trans (pad_counts piv R2.sprig R2.pad).2.symm)

/-- C7: two independent builds of the pine tree - two arbitrary random
streams fed to the same builder, with the same `Math.sin`/`Math.PI` -
produce exactly the same total vertex count and the same total triangle
count: every skip condition (`branchLength < 0.5`, pad-inside-trunk) is
free of random draws, and the jitters only perturb vertex data, never
the number of levels, branches, pads, sprigs or needles. -/
theorem pinetree_counts_stream_invariant (sinF : ℚ → ℚ) (piv : ℚ) (R1 R2 : TreeRand ℚ) :
    (createPineTreeGeometry R1 sinF piv).verts
        = (createPineTreeGeometry R2 sinF piv).verts ∧
    (createPineTreeGeometry R1 sinF piv).tris
        = (createPineTreeGeometry R2 sinF piv).tris := by
  have h := treeGeomList_counts R1 R2 sinF piv
  have hverts : (treeGeomList R1 sinF piv).map (fun g => g.verts)
      = (treeGeomList R2 sinF piv).map (fun g => g.verts) := by
    have := congrArg (List.map Prod.fst) h
    simpa [List.map_map, Function.comp] using this
  have htris : (treeGeomList R1 sinF piv).map (fun g => g.tris)
      = (treeGeomList R2 sinF piv).map (fun g => g.tris) := by
    have := congrArg (List.map Prod.snd) h
    simpa [List.map_map, Function.comp] using this
  constructor
  · show (mergeG (treeGeomList R1 sinF piv)).verts = (mergeG (treeGeomList R2 sinF piv)).verts
    simp only [mergeG]
    rw [hverts]
  · show (mergeG (treeGeomList R1 sinF piv)).tris = (mergeG (treeGeomList R2 sinF piv)).tris
    simp only [mergeG]
    rw [htris]

end Serene
